import Mathlib

/-
Verification of the gorill concurrent I/O decorator layer.

This file gives a shallow embedding of the package's core components —
the fan-out multi-writer (`NonLockingMultiWriteCloser`,
`LockingMultiWriteCloser`, `MultiWriteCloserFanOut`), the timeout
decorators (`TimedReadCloser`, `TimedWriteCloser`), the spooled writer
(`SpooledWriteCloser`), and the reference-counted duplicating writer
(`writeCloseDuper` / `Demux`) — and proves the specified properties of
their write, close and construction paths.

Modelling conventions:
  - Go byte slices are `List Nat`; Go `int` and `time.Duration` are `Int`
    (durations in nanoseconds).
  - A Go `(n int, err error)` return is `Nat × Option GoError`.
  - Endpoint behaviour (the wrapped `io.WriteCloser` / `io.ReadCloser`,
    an external collaborator) is an oracle: either a function from the
    written data to its reply, or an explicit list of replies consumed
    call by call.
  - A goroutine race (the `select` between a result channel and a timer)
    is an oracle boolean saying which branch won.
  - A Go panic in a constructor is `Option.none`; a constructor error
    return is `Except.error`.
-/

/-- The error values the modelled code can produce or pass through:
`io.ErrShortWrite`, `ErrTimeout` (carrying its duration),
`ErrReadAfterClose`, `ErrWriteAfterClose`, the configuration errors built
with `fmt.Errorf` in the `Flush`/`BufSize` setters, and opaque endpoint
errors (`errOther`). -/
inductive GoError
  | errShortWrite
  | errTimeout (d : Int)
  | errReadAfterClose
  | errWriteAfterClose
  | errConfig
  | errOther (code : Nat)
deriving DecidableEq, Repr

/-! ## Fan-out multi-writer

From `NonLockingMultiWriteCloser` (src/unnamed/part_007) and
`MultiWriteCloserFanOut` (src/slowWriter.go).  A member endpoint is a
`WEndpoint`: an identity (the Go map key), the endpoint's write
behaviour, and its close-time error (which the write path invokes and
discards: `w.Close() // ignore Close error`). -/

structure WEndpoint where
  eid : Nat
  writeFn : List Nat → Nat × Option GoError
  closeErr : Option GoError

/-- The `NonLockingMultiWriteCloser` state: `writers` models the
`map[io.WriteCloser]struct{}` (keys unique, listed in some order) and
`iows` the derived `[]io.WriteCloser` snapshot rebuilt by `update`. -/
structure MultiWriterState where
  writers : List WEndpoint
  iows : List WEndpoint

/-- The invariant the Go code maintains: map keys are unique and the
snapshot slice holds exactly the map's members (`update` is called after
every mutation; the list order stands in for Go's arbitrary map order). -/
def MultiWriterState.wf (m : MultiWriterState) : Prop :=
  (m.writers.map WEndpoint.eid).Nodup ∧ m.iows = m.writers

/-- Per-endpoint failure classification from the write loop body:
`n, err := w.Write(data); if n != len(data) { err = io.ErrShortWrite };
if err != nil { errored = append(errored, w) }`. -/
def writeFailed (data : List Nat) (w : WEndpoint) : Bool :=
  let r := w.writeFn data
  let e := if r.1 ≠ data.length then some GoError.errShortWrite else r.2
  e.isSome

/-- Outcome of one fan-out write call: the updated state, the ids of the
endpoints whose `Close` was invoked during the call, and the call's
returned `(n, err)` pair. -/
structure FanOutResult where
  state : MultiWriterState
  closed : List Nat
  n : Nat
  err : Option GoError

/-- `NonLockingMultiWriteCloser.Write`: every snapshot member is written
to (in goroutines; completion order only permutes the `errored` list, so
it is modelled in snapshot order), failed members are deleted from the
map and closed (close error discarded), the snapshot is rebuilt when
anything errored, and the call returns `(len(data), nil)`. -/
def NonLockingMultiWriteCloser.write (m : MultiWriterState) (data : List Nat) :
    FanOutResult :=
  let errored := m.iows.filter (writeFailed data)
  if errored.isEmpty then ⟨m, [], data.length, none⟩
  else
    let writers2 := m.writers.filter fun w => errored.all fun x => x.eid ≠ w.eid
    ⟨⟨writers2, writers2⟩, errored.map WEndpoint.eid, data.length, none⟩

/-- `NonLockingMultiWriteCloser.WriteSeries`: the same classification and
eviction performed sequentially over the snapshot; the `errored` list is
built in snapshot order, which is exactly a filter. -/
def NonLockingMultiWriteCloser.writeSeries (m : MultiWriterState) (data : List Nat) :
    FanOutResult :=
  let errored := m.iows.filter (writeFailed data)
  if errored.isEmpty then ⟨m, [], data.length, none⟩
  else
    let writers2 := m.writers.filter fun w => errored.all fun x => x.eid ≠ w.eid
    ⟨⟨writers2, writers2⟩, errored.map WEndpoint.eid, data.length, none⟩

/-- `LockingMultiWriteCloser.Write` takes the read lock and delegates to
the non-locking core (locking itself is not observable here). -/
def LockingMultiWriteCloser.write : MultiWriterState → List Nat → FanOutResult :=
  NonLockingMultiWriteCloser.write

/-- `LockingMultiWriteCloser.WriteSeries` delegates likewise. -/
def LockingMultiWriteCloser.writeSeries : MultiWriterState → List Nat → FanOutResult :=
  NonLockingMultiWriteCloser.writeSeries

/-- `MultiWriteCloserFanOut.Write` (src/slowWriter.go) is textually the
same procedure as `NonLockingMultiWriteCloser.Write` run under the
structure's own read lock. -/
def MultiWriteCloserFanOut.write : MultiWriterState → List Nat → FanOutResult :=
  NonLockingMultiWriteCloser.write

theorem NonLockingMultiWriteCloser.write_n_err (m : MultiWriterState) (data : List Nat) :
    (NonLockingMultiWriteCloser.write m data).n = data.length ∧
    (NonLockingMultiWriteCloser.write m data).err = none := by
  cases h : (m.iows.filter (writeFailed data)).isEmpty <;>
    simp [NonLockingMultiWriteCloser.write, h]

theorem NonLockingMultiWriteCloser.writeSeries_n_err (m : MultiWriterState) (data : List Nat) :
    (NonLockingMultiWriteCloser.writeSeries m data).n = data.length ∧
    (NonLockingMultiWriteCloser.writeSeries m data).err = none := by
  cases h : (m.iows.filter (writeFailed data)).isEmpty <;>
    simp [NonLockingMultiWriteCloser.writeSeries, h]

/-- C1: For every set of member endpoints (including the empty set) and
every data buffer, Write and WriteSeries on a Fan-Out multi-writer
(locking and non-locking variants alike) return exactly the pair
`(len(data), nil)`, regardless of how many member endpoints return an
error or report a short count. -/
theorem fanOut_write_always_reports_success (m : MultiWriterState) (data : List Nat) :
    (NonLockingMultiWriteCloser.write m data).n = data.length ∧
    (NonLockingMultiWriteCloser.write m data).err = none ∧
    (NonLockingMultiWriteCloser.writeSeries m data).n = data.length ∧
    (NonLockingMultiWriteCloser.writeSeries m data).err = none ∧
    (LockingMultiWriteCloser.write m data).n = data.length ∧
    (LockingMultiWriteCloser.write m data).err = none ∧
    (LockingMultiWriteCloser.writeSeries m data).n = data.length ∧
    (LockingMultiWriteCloser.writeSeries m data).err = none ∧
    (MultiWriteCloserFanOut.write m data).n = data.length ∧
    (MultiWriteCloserFanOut.write m data).err = none := by
  obtain ⟨h1, h2⟩ := NonLockingMultiWriteCloser.write_n_err m data
  obtain ⟨h3, h4⟩ := NonLockingMultiWriteCloser.writeSeries_n_err m data
  exact ⟨h1, h2, h3, h4, h1, h2, h3, h4, h1, h2⟩

/-- The sequential series writer performs the same state transformation
as the concurrent one (the Go bodies differ only in goroutine use). -/
theorem writeSeries_eq_write :
    NonLockingMultiWriteCloser.writeSeries = NonLockingMultiWriteCloser.write := rfl

theorem writeFailed_true_of (data : List Nat) (w : WEndpoint)
    (h : (w.writeFn data).2 ≠ none ∨ (w.writeFn data).1 < data.length) :
    writeFailed data w = true := by
  unfold writeFailed
  rcases h with h | h
  · by_cases hn : (w.writeFn data).1 = data.length
    · simp [hn, Option.isSome_iff_ne_none, h]
    · simp [hn]
  · simp [Nat.ne_of_lt h]

theorem writeFailed_false_of (data : List Nat) (w : WEndpoint)
    (h1 : (w.writeFn data).1 = data.length) (h2 : (w.writeFn data).2 = none) :
    writeFailed data w = false := by
  unfold writeFailed
  simp [h1, h2]

/-- A failed endpoint is closed during the call and absent from the
writer set afterwards. -/
theorem write_evicts_failed (m : MultiWriterState) (data : List Nat)
    (w : WEndpoint) (hw : w ∈ m.iows) (hf : writeFailed data w = true) :
    w.eid ∈ (NonLockingMultiWriteCloser.write m data).closed ∧
    w.eid ∉ ((NonLockingMultiWriteCloser.write m data).state.writers.map WEndpoint.eid) := by
  have hmem : w ∈ m.iows.filter (writeFailed data) := List.mem_filter.mpr ⟨hw, hf⟩
  have hne : (m.iows.filter (writeFailed data)).isEmpty = false := by
    cases hfe : (m.iows.filter (writeFailed data)).isEmpty
    · rfl
    · rw [List.isEmpty_iff] at hfe
      rw [hfe] at hmem
      exact absurd hmem (List.not_mem_nil w)
  simp only [NonLockingMultiWriteCloser.write, hne, Bool.false_eq_true, if_false]
  refine ⟨List.mem_map_of_mem WEndpoint.eid hmem, ?_⟩
  intro hcon
  obtain ⟨v, hv, hveq⟩ := List.mem_map.mp hcon
  have hvp := List.of_mem_filter hv
  have := List.all_eq_true.mp hvp w hmem
  exact absurd hveq.symm (by simpa using this)

/-- An endpoint whose write succeeded in full keeps its membership and is
not closed. -/
theorem write_keeps_succeeded (m : MultiWriterState) (data : List Nat)
    (hwf : m.wf) (w : WEndpoint) (hw : w ∈ m.iows) (hf : writeFailed data w = false) :
    w ∈ (NonLockingMultiWriteCloser.write m data).state.writers ∧
    w.eid ∉ (NonLockingMultiWriteCloser.write m data).closed := by
  obtain ⟨hnd, hsnap⟩ := hwf
  have hwmem : w ∈ m.writers := hsnap ▸ hw
  have key : ∀ x ∈ m.iows.filter (writeFailed data), x.eid ≠ w.eid := by
    intro x hx heq
    have hxi : x ∈ m.iows := List.mem_of_mem_filter hx
    have hxf : writeFailed data x = true := List.of_mem_filter hx
    have hxw : x ∈ m.writers := hsnap ▸ hxi
    have : x = w := List.inj_on_of_nodup_map hnd hxw hwmem heq
    rw [this, hf] at hxf
    exact Bool.false_ne_true hxf
  cases hfe : (m.iows.filter (writeFailed data)).isEmpty
  · simp only [NonLockingMultiWriteCloser.write, hfe, Bool.false_eq_true, if_false]
    constructor
    · refine List.mem_filter.mpr ⟨hwmem, List.all_eq_true.mpr fun x hx => ?_⟩
      simpa using key x hx
    · intro hcon
      obtain ⟨v, hv, hveq⟩ := List.mem_map.mp hcon
      exact key v hv hveq
  · simp only [NonLockingMultiWriteCloser.write, hfe, if_true]
    exact ⟨hwmem, List.not_mem_nil w.eid⟩

/-- C2: For every Fan-Out Write or WriteSeries call, every member
endpoint whose write returns a non-nil error or reports writing fewer
bytes than requested is, by the time the call returns, removed from the
writer set and has had its Close invoked (that Close's error is
discarded); endpoints whose write succeeds in full remain members
unchanged. -/
theorem fanOut_failed_endpoints_evicted (m : MultiWriterState) (data : List Nat)
    (hwf : m.wf) (w : WEndpoint) (hw : w ∈ m.iows) :
    (((w.writeFn data).2 ≠ none ∨ (w.writeFn data).1 < data.length) →
      w.eid ∈ (NonLockingMultiWriteCloser.write m data).closed ∧
      w.eid ∉ ((NonLockingMultiWriteCloser.write m data).state.writers.map WEndpoint.eid) ∧
      w.eid ∈ (NonLockingMultiWriteCloser.writeSeries m data).closed ∧
      w.eid ∉ ((NonLockingMultiWriteCloser.writeSeries m data).state.writers.map
        WEndpoint.eid)) ∧
    ((w.writeFn data).1 = data.length ∧ (w.writeFn data).2 = none →
      w ∈ (NonLockingMultiWriteCloser.write m data).state.writers ∧
      w.eid ∉ (NonLockingMultiWriteCloser.write m data).closed ∧
      w ∈ (NonLockingMultiWriteCloser.writeSeries m data).state.writers ∧
      w.eid ∉ (NonLockingMultiWriteCloser.writeSeries m data).closed) := by
  constructor
  · intro h
    obtain ⟨h1, h2⟩ := write_evicts_failed m data w hw (writeFailed_true_of data w h)
    rw [writeSeries_eq_write]
    exact ⟨h1, h2, h1, h2⟩
  · rintro ⟨h1, h2⟩
    obtain ⟨h3, h4⟩ :=
      write_keeps_succeeded m data hwf w hw (writeFailed_false_of data w h1 h2)
    rw [writeSeries_eq_write]
    exact ⟨h3, h4, h3, h4⟩

/-- An endpoint that writes everything it is asked to write. -/
def epOk : WEndpoint := ⟨1, fun d => (d.length, none), none⟩

/-- An endpoint that always reports a short count of zero bytes. -/
def epShort : WEndpoint := ⟨2, fun _ => (0, none), none⟩

/-- A two-member fan-out writer over `epOk` and `epShort`. -/
def mwcPair : MultiWriterState := ⟨[epOk, epShort], [epOk, epShort]⟩

theorem fanOut_failed_endpoints_evicted_witness :
    (epShort.eid ∈ (NonLockingMultiWriteCloser.write mwcPair [9]).closed ∧
     epShort.eid ∉ ((NonLockingMultiWriteCloser.write mwcPair [9]).state.writers.map
       WEndpoint.eid) ∧
     epShort.eid ∈ (NonLockingMultiWriteCloser.writeSeries mwcPair [9]).closed ∧
     epShort.eid ∉ ((NonLockingMultiWriteCloser.writeSeries mwcPair [9]).state.writers.map
       WEndpoint.eid)) ∧
    (epOk ∈ (NonLockingMultiWriteCloser.write mwcPair [9]).state.writers ∧
     epOk.eid ∉ (NonLockingMultiWriteCloser.write mwcPair [9]).closed ∧
     epOk ∈ (NonLockingMultiWriteCloser.writeSeries mwcPair [9]).state.writers ∧
     epOk.eid ∉ (NonLockingMultiWriteCloser.writeSeries mwcPair [9]).closed) :=
  ⟨(fanOut_failed_endpoints_evicted mwcPair [9] ⟨by decide, rfl⟩ epShort
      (by simp [mwcPair])).1 (Or.inr (by decide)),
   (fanOut_failed_endpoints_evicted mwcPair [9] ⟨by decide, rfl⟩ epOk
      (by simp [mwcPair])).2 ⟨by decide, by decide⟩⟩

/-! ## Timeout decorators

From `TimedReadCloser` (src/timedReadCloser.go) and `TimedWriteCloser`
(src/unnamed/part_005).  Each call submits a job carrying a fresh
private result channel and then selects between that channel and a
timer; the oracle `timerFired` records which branch of the select won
(the timer also wins when the depth-1 handoff channel was full and the
job was dropped, since then nothing ever arrives on the fresh channel).
The underlying endpoint's reply is the oracle `underlying`. -/

structure TimedReadCloser where
  halted : Bool
  timeout : Int
deriving DecidableEq, Repr

structure TimedWriteCloser where
  halted : Bool
  timeout : Int
deriving DecidableEq, Repr

/-- `TimedReadCloser.Read`: reject when halted, otherwise return the
underlying reply unchanged or `(0, ErrTimeout(timeout))`. -/
def TimedReadCloser.read (t : TimedReadCloser) (underlying : Nat × Option GoError)
    (timerFired : Bool) : Nat × Option GoError :=
  if t.halted then (0, some GoError.errReadAfterClose)
  else if timerFired then (0, some (GoError.errTimeout t.timeout))
  else underlying

/-- `TimedWriteCloser.Write`: same shape with the write-side errors. -/
def TimedWriteCloser.write (w : TimedWriteCloser) (underlying : Nat × Option GoError)
    (timerFired : Bool) : Nat × Option GoError :=
  if w.halted then (0, some GoError.errWriteAfterClose)
  else if timerFired then (0, some (GoError.errTimeout w.timeout))
  else underlying

/-- A sequence of calls on one instance.  Every call allocates its own
result channel (`results := make(chan readResult, 1)`), so call `i`'s
outcome is a function of call `i`'s own oracles alone; an abandoned
result sits in its private buffered channel forever. -/
def TimedReadCloser.readTrace (t : TimedReadCloser)
    (calls : List ((Nat × Option GoError) × Bool)) : List (Nat × Option GoError) :=
  calls.map fun c => t.read c.1 c.2

/-- `TimedWriteCloser` analogue of `TimedReadCloser.readTrace`. -/
def TimedWriteCloser.writeTrace (w : TimedWriteCloser)
    (calls : List ((Nat × Option GoError) × Bool)) : List (Nat × Option GoError) :=
  calls.map fun c => w.write c.1 c.2

/-- `NewTimedReadCloser`: panics (modelled `none`) on a non-positive
timeout, otherwise yields a live decorator with that timeout. -/
def NewTimedReadCloser (timeout : Int) : Option TimedReadCloser :=
  if timeout ≤ 0 then none else some { halted := false, timeout := timeout }

/-- `NewTimedWriteCloser`: same validation on the write side. -/
def NewTimedWriteCloser (timeout : Int) : Option TimedWriteCloser :=
  if timeout ≤ 0 then none else some { halted := false, timeout := timeout }

/-- C3: Every Read on a non-halted TimedReadCloser and every Write on a
non-halted TimedWriteCloser returns either the underlying endpoint's
(count, error) result unchanged, or the pair (0, ErrTimeout(d)) where d
is exactly the configured timeout duration; no other outcome is
possible, and each call in a sequence of calls is determined by its own
call's oracles alone, so a timed-out underlying result is never
delivered to a later caller. -/
theorem timed_call_outcomes (t : TimedReadCloser) (w : TimedWriteCloser)
    (u : Nat × Option GoError) (b : Bool)
    (ht : t.halted = false) (hw : w.halted = false) :
    (t.read u b = u ∨ t.read u b = (0, some (GoError.errTimeout t.timeout))) ∧
    (w.write u b = u ∨ w.write u b = (0, some (GoError.errTimeout w.timeout))) ∧
    (∀ (calls : List ((Nat × Option GoError) × Bool)) (i : Nat) (h : i < calls.length),
      (t.readTrace calls).get ⟨i, by simpa [TimedReadCloser.readTrace] using h⟩ =
        t.read (calls.get ⟨i, h⟩).1 (calls.get ⟨i, h⟩).2) ∧
    (∀ (calls : List ((Nat × Option GoError) × Bool)) (i : Nat) (h : i < calls.length),
      (w.writeTrace calls).get ⟨i, by simpa [TimedWriteCloser.writeTrace] using h⟩ =
        w.write (calls.get ⟨i, h⟩).1 (calls.get ⟨i, h⟩).2) := by
  refine ⟨?_, ?_, ?_, ?_⟩
  · unfold TimedReadCloser.read
    rw [ht]
    cases b
    · simp
    · simp
  · unfold TimedWriteCloser.write
    rw [hw]
    cases b
    · simp
    · simp
  · intro calls i h
    simp [TimedReadCloser.readTrace]
  · intro calls i h
    simp [TimedWriteCloser.writeTrace]

theorem timed_call_outcomes_witness :
    ((⟨false, 5⟩ : TimedReadCloser).read (3, none) false = (3, none) ∨
     (⟨false, 5⟩ : TimedReadCloser).read (3, none) false =
       (0, some (GoError.errTimeout 5))) ∧
    ((⟨false, 5⟩ : TimedWriteCloser).write (3, none) true = (3, none) ∨
     (⟨false, 5⟩ : TimedWriteCloser).write (3, none) true =
       (0, some (GoError.errTimeout 5))) :=
  ⟨(timed_call_outcomes ⟨false, 5⟩ ⟨false, 5⟩ (3, none) false rfl rfl).1,
   (timed_call_outcomes ⟨false, 5⟩ ⟨false, 5⟩ (3, none) true rfl rfl).2.1⟩

/-- C7: For every duration d, constructing a timed read or write
decorator fails fatally by panicking (modelled as `none`) if and only if
d ≤ 0, before any read or write call is possible; for every d > 0
construction succeeds and returns a decorator configured with d and not
yet halted. -/
theorem timed_constructor_validation (d : Int) :
    (NewTimedReadCloser d = none ↔ d ≤ 0) ∧
    (NewTimedWriteCloser d = none ↔ d ≤ 0) ∧
    (∀ t, NewTimedReadCloser d = some t → t.timeout = d ∧ t.halted = false) ∧
    (∀ w, NewTimedWriteCloser d = some w → w.timeout = d ∧ w.halted = false) := by
  unfold NewTimedReadCloser NewTimedWriteCloser
  by_cases hd : d ≤ 0
  · simp [hd]
  · refine ⟨by simp [hd], by simp [hd], ?_, ?_⟩
    · intro t h
      rw [if_neg hd] at h
      cases h
      exact ⟨rfl, rfl⟩
    · intro w h
      rw [if_neg hd] at h
      cases h
      exact ⟨rfl, rfl⟩

theorem timed_constructor_validation_witness :
    (NewTimedReadCloser (-1) = none ∧ NewTimedWriteCloser (-1) = none) ∧
    ((⟨false, 5⟩ : TimedReadCloser).timeout = 5 ∧
     (⟨false, 5⟩ : TimedReadCloser).halted = false) ∧
    ((⟨false, 5⟩ : TimedWriteCloser).timeout = 5 ∧
     (⟨false, 5⟩ : TimedWriteCloser).halted = false) :=
  ⟨⟨(timed_constructor_validation (-1)).1.mpr (by decide),
    (timed_constructor_validation (-1)).2.1.mpr (by decide)⟩,
   (timed_constructor_validation 5).2.2.1 ⟨false, 5⟩ (by decide),
   (timed_constructor_validation 5).2.2.2 ⟨false, 5⟩ (by decide)⟩

/-! ## Spooled writer

From `SpooledWriteCloser` (src/slowWriter.go).  The single worker
serializes all buffer writes, so a call's visible effect is a sequential
state update.  The `bufio.Writer` layer is modelled over an error-free
buffer endpoint: a worker write appends the data and reports
`(len(data), nil)`; the capacity-overflow spill performed inside
`bufio.Writer.Write` is inherited library behaviour and not needed by
any property proved here.  Flush and close errors of the underlying
endpoint are oracles. -/

structure SpooledWriteCloser where
  halted : Bool
  buffered : List Nat
  underWritten : List Nat
  underClosed : Bool
deriving DecidableEq, Repr

/-- `SpooledWriteCloser.Write`: rejected once halted, otherwise the
worker appends the data into the `bufio.Writer` and reports its
result. -/
def SpooledWriteCloser.write (s : SpooledWriteCloser) (data : List Nat) :
    SpooledWriteCloser × (Nat × Option GoError) :=
  if s.halted then (s, (0, some GoError.errWriteAfterClose))
  else ({ s with buffered := s.buffered ++ data }, (data.length, none))

/-- `SpooledWriteCloser.Flush`: `bw.Flush()` under the buffer lock, with
the underlying endpoint's answer as oracle; on success the buffered
bytes move to the endpoint. -/
def SpooledWriteCloser.flush (s : SpooledWriteCloser) (flushErr : Option GoError) :
    SpooledWriteCloser × Option GoError :=
  match flushErr with
  | none => ({ s with buffered := [], underWritten := s.underWritten ++ s.buffered }, none)
  | some e => (s, some e)

/-- `SpooledWriteCloser.Close`: close the jobs channel, wait for the
worker, mark halted, `err1 := w.Flush()`, `err2 := w.iowc.Close()`,
return `err2` if non-nil else `err1`. -/
def SpooledWriteCloser.close (s : SpooledWriteCloser)
    (flushErr closeErr : Option GoError) : SpooledWriteCloser × Option GoError :=
  let s1 : SpooledWriteCloser := { s with halted := true }
  let fr := s1.flush flushErr
  let s3 : SpooledWriteCloser := { fr.1 with underClosed := true }
  (s3, if closeErr ≠ none then closeErr else fr.2)

/-- C5: SpooledWriteCloser.Close performs a final flush and then closes
the underlying endpoint; if the underlying close returns a non-nil
error, that error is returned (taking precedence over any flush error);
otherwise the flush error (nil when the flush succeeded) is returned. -/
theorem spooled_close_error_precedence (s : SpooledWriteCloser)
    (flushErr closeErr : Option GoError) :
    (s.close flushErr closeErr).2 = (if closeErr.isSome then closeErr else flushErr) ∧
    (s.close flushErr closeErr).1.underClosed = true ∧
    (s.close flushErr closeErr).1.halted = true ∧
    (s.close flushErr closeErr).1.buffered =
      (if flushErr = none then [] else s.buffered) ∧
    (s.close flushErr closeErr).1.underWritten =
      (if flushErr = none then s.underWritten ++ s.buffered else s.underWritten) := by
  cases flushErr <;> cases closeErr <;>
    simp [SpooledWriteCloser.close, SpooledWriteCloser.flush]

/-- `TimedReadCloser.Close`: close the handoff channel, wait for the
worker to retire, set halted, return the underlying close error. -/
def TimedReadCloser.closeOp (t : TimedReadCloser) (closeErr : Option GoError) :
    TimedReadCloser × Option GoError :=
  ({ t with halted := true }, closeErr)

/-- `TimedWriteCloser.Close` analogue. -/
def TimedWriteCloser.closeOp (w : TimedWriteCloser) (closeErr : Option GoError) :
    TimedWriteCloser × Option GoError :=
  ({ w with halted := true }, closeErr)

/-- C6: After Close has completed on a Timed read/write decorator or a
Spooled writer, every subsequent Read/Write call on that instance fails
immediately with the distinct used-after-close error
(ErrReadAfterClose / ErrWriteAfterClose) and count 0, for every oracle
(so no outcome blocks on or reaches the underlying endpoint). -/
theorem used_after_close_rejected (t : TimedReadCloser) (w : TimedWriteCloser)
    (s : SpooledWriteCloser) (ce1 ce2 fe ce3 : Option GoError)
    (u : Nat × Option GoError) (b : Bool) (data : List Nat) :
    (t.closeOp ce1).1.read u b = (0, some GoError.errReadAfterClose) ∧
    (w.closeOp ce2).1.write u b = (0, some GoError.errWriteAfterClose) ∧
    ((s.close fe ce3).1.write data).2 = (0, some GoError.errWriteAfterClose) := by
  refine ⟨rfl, rfl, ?_⟩
  have hh : (s.close fe ce3).1.halted = true := by
    cases fe <;> simp [SpooledWriteCloser.close, SpooledWriteCloser.flush]
  simp [SpooledWriteCloser.write, hh]

/-- Construction-time configuration accumulated by the setters. -/
structure SpooledConfig where
  bufferSize : Int
  flushPeriod : Int
deriving DecidableEq, Repr

/-- The two `SpooledWriteCloserSetter` options: `Flush(periodicity)` and
`BufSize(size)`. -/
inductive SpooledWriteCloserSetter
  | flushOption (periodicity : Int)
  | bufSizeOption (size : Int)
deriving DecidableEq, Repr

/-- The numeric value a setter carries. -/
def setterValue : SpooledWriteCloserSetter → Int
  | .flushOption p => p
  | .bufSizeOption n => n

/-- Applying one setter to the writer under construction: each rejects a
non-positive value with a configuration error, otherwise records it. -/
def applySetter (cfg : SpooledConfig) :
    SpooledWriteCloserSetter → Except GoError SpooledConfig
  | .flushOption p =>
    if p ≤ 0 then .error GoError.errConfig else .ok { cfg with flushPeriod := p }
  | .bufSizeOption n =>
    if n ≤ 0 then .error GoError.errConfig else .ok { cfg with bufferSize := n }

/-- The constructor's setter loop:
`for _, setter := range setters { if err := setter(w); err != nil { return nil, err } }`. -/
def applySetters : SpooledConfig → List SpooledWriteCloserSetter → Except GoError SpooledConfig
  | cfg, [] => .ok cfg
  | cfg, s :: rest =>
    match applySetter cfg s with
    | .error e => .error e
    | .ok cfg2 => applySetters cfg2 rest

/-- `NewSpooledWriteCloser`: starts from `DefaultBufSize` (4096) and
`DefaultFlushPeriod` (15s = 15000000000ns) and runs the setters; an
error from any setter aborts construction with no writer. -/
def NewSpooledWriteCloser (setters : List SpooledWriteCloserSetter) :
    Except GoError SpooledConfig :=
  applySetters { bufferSize := 4096, flushPeriod := 15000000000 } setters

theorem applySetters_error_iff (setters : List SpooledWriteCloserSetter) :
    ∀ cfg : SpooledConfig,
      (∃ e, applySetters cfg setters = .error e) ↔ ∃ s ∈ setters, setterValue s ≤ 0 := by
  induction setters with
  | nil =>
    intro cfg
    simp [applySetters]
  | cons s rest ih =>
    intro cfg
    by_cases hv : setterValue s ≤ 0
    · have herr : applySetter cfg s = .error GoError.errConfig := by
        cases s <;> simp_all [applySetter, setterValue]
      simp only [applySetters, herr]
      exact ⟨fun _ => ⟨s, List.mem_cons_self s rest, hv⟩, fun _ => ⟨GoError.errConfig, rfl⟩⟩
    · obtain ⟨cfg2, hok⟩ : ∃ cfg2, applySetter cfg s = .ok cfg2 := by
        cases s with
        | flushOption p =>
          refine ⟨{ cfg with flushPeriod := p }, ?_⟩
          simp only [applySetter]
          rw [if_neg (by simpa [setterValue] using hv)]
        | bufSizeOption n =>
          refine ⟨{ cfg with bufferSize := n }, ?_⟩
          simp only [applySetter]
          rw [if_neg (by simpa [setterValue] using hv)]
      simp only [applySetters, hok]
      rw [ih cfg2]
      constructor
      · rintro ⟨x, hx, hxv⟩
        exact ⟨x, List.mem_cons_of_mem s hx, hxv⟩
      · rintro ⟨x, hx, hxv⟩
        rcases List.mem_cons.mp hx with h | h
        · exact absurd (h ▸ hxv) hv
        · exact ⟨x, h, hxv⟩

/-- C8: NewSpooledWriteCloser returns a configuration error (and no
writer) if and only if a supplied buffer-size or flush-period option
value is ≤ 0; when neither option is supplied, construction succeeds
with buffer size 4096 and flush period 15 seconds. -/
theorem spooled_constructor_validation (setters : List SpooledWriteCloserSetter) :
    ((∃ e, NewSpooledWriteCloser setters = .error e) ↔
      ∃ s ∈ setters, setterValue s ≤ 0) ∧
    NewSpooledWriteCloser [] = .ok ⟨4096, 15000000000⟩ :=
  ⟨applySetters_error_iff setters _, rfl⟩

/-! ## Reference-counted duplicating writer

From `writeCloseDuper` (src/writeCloseDuper.go) and the identical
`Demux` (src/slowWriter.go).  The group shares an outstanding-handle
counter (`pDone`): creation yields one handle and every `Dup` adds one;
each handle's `Close` does `done.Done()`, its watcher goroutine then
decrements the shared counter, and the creation-time watcher invokes the
underlying endpoint's `Close` (discarding its error) when the counter
reaches zero.  The state tracks the still-open handle ids and how many
times the underlying `Close` has run. -/

structure WriteCloseDuperGroup where
  openHandles : List Nat
  underlyingCloses : Nat
  underCloseErr : Option GoError
deriving DecidableEq, Repr

/-- A group holding k open handles (1 from `NewWriteCloseDuper` plus
k−1 from `Dup`), whose underlying endpoint would answer `underErr` to
its own `Close`. -/
def NewWriteCloseDuperGroup (k : Nat) (underErr : Option GoError) : WriteCloseDuperGroup :=
  ⟨List.range k, 0, underErr⟩

/-- `writeCloseDuper.Dup`: a fresh handle joins the group and the
outstanding-handle counter grows by one. -/
def duperDup (g : WriteCloseDuperGroup) (newId : Nat) : WriteCloseDuperGroup :=
  { g with openHandles := g.openHandles ++ [newId] }

/-- `writeCloseDuper.Close` on handle `h`: the handle retires and, when
it was the last one, the watcher closes the underlying endpoint — its
error (`g.underCloseErr`) discarded.  The call itself returns `nil`.
(Closing a handle twice would panic in a Go `WaitGroup`; the model makes
it a no-op, and the theorems only consider each handle closed once.) -/
def duperClose (g : WriteCloseDuperGroup) (h : Nat) :
    WriteCloseDuperGroup × Option GoError :=
  if h ∈ g.openHandles then
    let rest := g.openHandles.erase h
    ({ openHandles := rest,
       underlyingCloses :=
         if rest.isEmpty then g.underlyingCloses + 1 else g.underlyingCloses,
       underCloseErr := g.underCloseErr },
     none)
  else (g, none)

/-- Folding a sequence of handle closes over a group. -/
def duperRun (g : WriteCloseDuperGroup) (order : List Nat) : WriteCloseDuperGroup :=
  order.foldl (fun g h => (duperClose g h).1) g

theorem duperRun_spec (p : List Nat) : ∀ g : WriteCloseDuperGroup,
    g.openHandles.Nodup → p.Nodup → (∀ x ∈ p, x ∈ g.openHandles) →
    (duperRun g p).openHandles.length = g.openHandles.length - p.length ∧
    (duperRun g p).underlyingCloses =
      g.underlyingCloses +
        (if p ≠ [] ∧ p.length = g.openHandles.length then 1 else 0) := by
  induction p with
  | nil =>
    intro g _ _ _
    simp [duperRun]
  | cons h t ih =>
    intro g hg hp hsub
    have hmem : h ∈ g.openHandles := hsub h (List.mem_cons_self h t)
    have hlen : (g.openHandles.erase h).length + 1 = g.openHandles.length :=
      List.length_erase_add_one hmem
    have hclose : (duperClose g h).1 =
        ⟨g.openHandles.erase h,
         if (g.openHandles.erase h).isEmpty then g.underlyingCloses + 1
         else g.underlyingCloses,
         g.underCloseErr⟩ := by
      simp [duperClose, hmem]
    have hrun : duperRun g (h :: t) = duperRun ((duperClose g h).1) t := rfl
    have htmem : ∀ x ∈ t, x ∈ g.openHandles.erase h := by
      intro x hx
      have hxo : x ∈ g.openHandles := hsub x (List.mem_cons_of_mem h hx)
      have hxh : x ≠ h := by
        intro hxe
        exact (List.nodup_cons.mp hp).1 (hxe ▸ hx)
      exact (List.mem_erase_of_ne hxh).mpr hxo
    cases hre : (g.openHandles.erase h).isEmpty
    · -- more handles remain open after this close
      have hrne : g.openHandles.erase h ≠ [] := by
        intro hnil
        rw [hnil] at hre
        exact absurd hre (by simp)
      have hrpos : 0 < (g.openHandles.erase h).length := List.length_pos.mpr hrne
      obtain ⟨ihl, ihc⟩ := ih ⟨g.openHandles.erase h, g.underlyingCloses, g.underCloseErr⟩
        (hg.erase h) (List.nodup_cons.mp hp).2 htmem
      rw [hrun, hclose, hre]
      simp only [Bool.false_eq_true, if_false]
      constructor
      · rw [ihl]
        simp only [List.length_cons]
        omega
      · rw [ihc]
        by_cases ht : t = []
        · subst ht
          simp only [ne_eq, not_true_eq_false, false_and, if_false, List.length_nil]
          have : ¬([h] ≠ [] ∧ [h].length = g.openHandles.length) := by
            simp only [List.length_singleton]
            omega
          rw [if_neg this]
        · have h1 : (t ≠ [] ∧ t.length = (g.openHandles.erase h).length) ↔
              ((h :: t) ≠ [] ∧ (h :: t).length = g.openHandles.length) := by
            simp only [ne_eq, List.length_cons]
            constructor
            · rintro ⟨_, hteq⟩
              exact ⟨by simp, by omega⟩
            · rintro ⟨_, hteq⟩
              exact ⟨ht, by omega⟩
          rw [if_congr h1 rfl rfl]
    · -- this close empties the group: the watcher closes the endpoint
      have hnil : g.openHandles.erase h = [] := List.isEmpty_iff.mp hre
      rw [hnil] at hlen
      simp only [List.length_nil] at hlen
      have ht : t = [] := by
        cases t with
        | nil => rfl
        | cons x xs =>
          have := htmem x (List.mem_cons_self x xs)
          rw [hnil] at this
          exact absurd this (List.not_mem_nil x)
      subst ht
      rw [hrun, hclose, hre]
      simp only [if_true, duperRun, List.foldl_nil]
      constructor
      · simp only [hnil, List.length_nil, List.length_cons]
        omega
      · have : ([h] ≠ [] ∧ [h].length = g.openHandles.length) := by
          simp only [List.length_singleton, ne_eq]
          constructor
          · simp
          · omega
        rw [if_pos this]

/-- C4: For every Duplicating Writer group with k handles total (the
initial handle plus k−1 handles obtained via Dup), the underlying
endpoint's Close is invoked exactly once, and only after Close has been
called on all k handles, in any order of handle closes (every
permutation of the k handle ids): after the full sequence the underlying
close count is exactly 1, and after any proper prefix it is 0. -/
theorem duper_underlying_closed_once (k : Nat) (underErr : Option GoError)
    (order : List Nat) (hk : 0 < k) (hperm : order.Perm (List.range k)) :
    (duperRun (NewWriteCloseDuperGroup k underErr) order).underlyingCloses = 1 ∧
    ∀ p rest, order = p ++ rest → rest ≠ [] →
      (duperRun (NewWriteCloseDuperGroup k underErr) p).underlyingCloses = 0 := by
  have hnodr : (List.range k).Nodup := List.nodup_range k
  have hnod : order.Nodup := hperm.nodup_iff.mpr hnodr
  have hlen : order.length = k := by
    rw [hperm.length_eq, List.length_range]
  have hsub : ∀ x ∈ order, x ∈ List.range k := fun x hx => hperm.mem_iff.mp hx
  constructor
  · obtain ⟨_, hc⟩ := duperRun_spec order (NewWriteCloseDuperGroup k underErr)
      hnodr hnod hsub
    rw [hc]
    have : (order ≠ [] ∧ order.length =
        (NewWriteCloseDuperGroup k underErr).openHandles.length) := by
      constructor
      · intro hnil
        rw [hnil] at hlen
        simp at hlen
        omega
      · simp [NewWriteCloseDuperGroup, hlen]
    rw [if_pos this]
    rfl
  · intro p rest horder hrest
    have hpnod : p.Nodup := by
      rw [horder] at hnod
      exact hnod.of_append_left
    have hpsub : ∀ x ∈ p, x ∈ List.range k := fun x hx =>
      hsub x (horder ▸ List.mem_append_left rest hx)
    obtain ⟨_, hc⟩ := duperRun_spec p (NewWriteCloseDuperGroup k underErr)
      hnodr hpnod hpsub
    rw [hc]
    have hplen : p.length < k := by
      have : p.length + rest.length = k := by
        rw [← hlen, horder, List.length_append]
      have hrpos : 0 < rest.length := List.length_pos.mpr hrest
      omega
    have : ¬(p ≠ [] ∧ p.length =
        (NewWriteCloseDuperGroup k underErr).openHandles.length) := by
      rintro ⟨_, hcon⟩
      simp only [NewWriteCloseDuperGroup, List.length_range] at hcon
      omega
    rw [if_neg this]
    rfl

theorem duper_underlying_closed_once_witness :
    (duperRun (NewWriteCloseDuperGroup 2 (some (GoError.errOther 3))) [1, 0]).underlyingCloses
      = 1 ∧
    (duperRun (NewWriteCloseDuperGroup 2 (some (GoError.errOther 3))) [1]).underlyingCloses
      = 0 :=
  ⟨(duper_underlying_closed_once 2 (some (GoError.errOther 3)) [1, 0]
      (by decide) (by decide)).1,
   (duper_underlying_closed_once 2 (some (GoError.errOther 3)) [1, 0]
      (by decide) (by decide)).2 [1] [0] rfl (by decide)⟩

/-- The `writeCloseDuper.Write` / `Demux.Write` drain loop under the
shared write lock:
`for written < len(data) && err == nil { m, err = dm.iowc.Write(data[written:]); written += m }`.
Oracle entry k is the underlying endpoint's reply `(m, err)` to the k-th
`Write(data[written:])`; `none` means the loop would invoke the endpoint
once more than the oracle answers (the loop is still running). -/
def duperDrain : List (Nat × Option GoError) → Nat → Nat → Option (Nat × Option GoError)
  | [], total, written =>
    if written < total then none else some (written, none)
  | (m, e) :: rest, total, written =>
    if written < total then
      match e with
      | some err => some (written + m, some err)
      | none => duperDrain rest total (written + m)
    else some (written, none)

/-- The `io.Writer` contract on the underlying endpoint: each call's
reported count is at most the number of bytes it was handed
(`Write(data[written:])` may report at most `len(data) - written`). -/
def drainContractOk : List (Nat × Option GoError) → Nat → Nat → Prop
  | [], _, _ => True
  | (m, _) :: rest, total, written =>
    m ≤ total - written ∧ drainContractOk rest total (written + m)

theorem duperDrain_all_ok (oracle : List (Nat × Option GoError)) :
    ∀ total written, (∀ r ∈ oracle, r.2 = none) → drainContractOk oracle total written →
    written ≤ total → duperDrain oracle total written ≠ none →
    duperDrain oracle total written = some (total, none) := by
  induction oracle with
  | nil =>
    intro total written _ _ hle hne
    by_cases hlt : written < total
    · simp [duperDrain, hlt] at hne
    · have heq : written = total := le_antisymm hle (Nat.not_lt.mp hlt)
      simp [duperDrain, hlt, heq]
  | cons r rest ih =>
    obtain ⟨m, e⟩ := r
    intro total written hnil hc hle hne
    have he : e = none := hnil (m, e) (List.mem_cons_self _ _)
    subst he
    by_cases hlt : written < total
    · have hstep : duperDrain ((m, none) :: rest) total written =
          duperDrain rest total (written + m) := by
        simp [duperDrain, hlt]
      rw [hstep] at hne ⊢
      exact ih total (written + m)
        (fun r hr => hnil r (List.mem_cons_of_mem _ hr)) hc.2
        (by have := hc.1; omega) hne
    · have heq : written = total := le_antisymm hle (Nat.not_lt.mp hlt)
      simp [duperDrain, hlt, heq]

theorem duperDrain_error (oracle : List (Nat × Option GoError)) :
    ∀ total written n e, duperDrain oracle total written = some (n, some e) →
    ∃ pre m rest, oracle = pre ++ (m, some e) :: rest ∧ (∀ r ∈ pre, r.2 = none) ∧
      n = written + (pre.map Prod.fst).sum + m := by
  induction oracle with
  | nil =>
    intro total written n e hres
    by_cases hlt : written < total <;> simp [duperDrain, hlt] at hres
  | cons r rest ih =>
    obtain ⟨m1, e1⟩ := r
    intro total written n e hres
    by_cases hlt : written < total
    · cases e1 with
      | some err =>
        simp only [duperDrain, hlt, if_true, Option.some.injEq, Prod.mk.injEq] at hres
        obtain ⟨hn, he⟩ := hres
        refine ⟨[], m1, rest, ?_, by simp, ?_⟩
        · simp [he]
        · simp [← hn]
      | none =>
        have hstep : duperDrain ((m1, none) :: rest) total written =
            duperDrain rest total (written + m1) := by
          simp [duperDrain, hlt]
        rw [hstep] at hres
        obtain ⟨pre, m, rest2, heq, hpre, hn⟩ := ih total (written + m1) n e hres
        refine ⟨(m1, none) :: pre, m, rest2, by simp [heq], ?_, ?_⟩
        · intro r hr
          rcases List.mem_cons.mp hr with h | h
          · rw [h]
          · exact hpre r h
        · simp only [List.map_cons, List.sum_cons]
          omega
    · simp [duperDrain, hlt] at hres

/-- C9: For every Write(data) on a Duplicating Writer handle (oracle =
the underlying endpoint's successive replies, total = len(data)): if
every invocation of the underlying endpoint's write returns a nil error
then, whenever the drain loop completes, Write returns (len(data), nil)
even when individual underlying writes are short (short writes are
retried, never surfaced); if some underlying write returns a non-nil
error, Write returns that error together with the total byte count
accumulated over all underlying write calls. -/
theorem duper_write_drain_loop (oracle : List (Nat × Option GoError)) (total : Nat) :
    ((∀ r ∈ oracle, r.2 = none) → drainContractOk oracle total 0 →
      duperDrain oracle total 0 ≠ none →
      duperDrain oracle total 0 = some (total, none)) ∧
    (∀ n e, duperDrain oracle total 0 = some (n, some e) →
      ∃ pre m rest, oracle = pre ++ (m, some e) :: rest ∧ (∀ r ∈ pre, r.2 = none) ∧
        n = (pre.map Prod.fst).sum + m) := by
  constructor
  · intro h1 h2 h3
    exact duperDrain_all_ok oracle total 0 h1 h2 (Nat.zero_le _) h3
  · intro n e hres
    obtain ⟨pre, m, rest, hq, hpre, hn⟩ := duperDrain_error oracle total 0 n e hres
    exact ⟨pre, m, rest, hq, hpre, by omega⟩

theorem duper_write_drain_loop_witness :
    duperDrain [(2, none), (1, none)] 3 0 = some (3, none) ∧
    ∃ pre m rest,
      ([(2, none), (3, some (GoError.errOther 7))] : List (Nat × Option GoError)) =
        pre ++ (m, some (GoError.errOther 7)) :: rest ∧
      (∀ r ∈ pre, r.2 = none) ∧ 5 = (pre.map Prod.fst).sum + m :=
  ⟨(duper_write_drain_loop [(2, none), (1, none)] 3).1 (by decide)
      ⟨by decide, by decide, trivial⟩ (by decide),
   (duper_write_drain_loop [(2, none), (3, some (GoError.errOther 7))] 9).2 5
      (GoError.errOther 7) (by decide)⟩

/-- C10: Close on any Duplicating Writer handle always returns nil — for
every handle, not only the one whose Close triggers the underlying
teardown — so the underlying endpoint's Close error (whatever
`underCloseErr` is) is never observable through any handle's Close
return value. -/
theorem duper_handle_close_returns_nil (g : WriteCloseDuperGroup) (h : Nat)
    (hmem : h ∈ g.openHandles) : (duperClose g h).2 = none := by
  simp [duperClose, hmem]

theorem duper_handle_close_returns_nil_witness :
    (duperClose (NewWriteCloseDuperGroup 2 (some (GoError.errOther 3))) 1).2 = none :=
  duper_handle_close_returns_nil (NewWriteCloseDuperGroup 2 (some (GoError.errOther 3))) 1
    (by decide)
